import Mathlib

/-!
# Verification of the Maelstrom Raft demo (`demo/python/raft.py`)

A shallow embedding of the Python Raft demo node: the 1-indexed log, the
key-value state machine, the Raft role engine and its message handlers,
together with a step relation covering every state-mutating operation of
the main loop.  Python exceptions are modelled with `Except`, the carried
value of `.error` being the node state at the moment of the raise (the
main loop catches every exception and continues with that state).
Wall-clock deadline values (`time.time()`-derived floats) are supplied as
abstract `Int` oracle parameters: no claim constrains their arithmetic.
-/

namespace Maelstrom

/-- An opaque JSON scalar, as stored in the key-value map.  Python `==`
on distinct scalar shapes is `False`, matching structural equality here. -/
inductive Value where
  | int (n : Int)
  | str (s : String)
  deriving DecidableEq, Repr

/-- `str(v)` as Python prints the scalar. -/
def Value.pystr : Value → String
  | .int n => toString n
  | .str s => s

/-- Python list indexing `xs[j]`: non-negative indices from the front,
negative indices from the back, `none` for an `IndexError`. -/
def pyIndex (xs : List α) (j : Int) : Option α :=
  if 0 ≤ j then xs.get? j.toNat
  else if 0 ≤ (xs.length : Int) + j then xs.get? ((xs.length : Int) + j).toNat
  else none

/-- Python slice `xs[0:s]`: a negative stop counts from the back, a stop
beyond the length keeps everything. -/
def pySliceTo (xs : List α) (s : Int) : List α :=
  if s < 0 then xs.take ((xs.length : Int) + s).toNat
  else xs.take s.toNat

/-- `majority(n) = int(math.floor((n / 2.0) + 1))`. -/
def majority (n : Nat) : Nat := n / 2 + 1

/-- Insert into an ascending list, keeping it ascending. -/
def insertSorted (x : Int) : List Int → List Int
  | [] => [x]
  | y :: ys => if x ≤ y then x :: y :: ys else y :: insertSorted x ys

/-- `xs.sort()`: ascending order (on integers any comparison sort computes
the same list, so insertion sort models Python's stable sort exactly). -/
def pysort (xs : List Int) : List Int := xs.foldr insertSorted []

/-- `median(xs)`: sort ascending and take the element at 0-indexed position
`len(xs) - majority(len(xs))`; `none` for the `IndexError` on `[]`. -/
def median (xs : List Int) : Option Int :=
  (pysort xs).get? (xs.length - majority xs.length)

/-- Python dict assignment `m[k] = v` on an association list kept in
insertion order (updates in place, appends fresh keys). -/
def dictInsert (m : List (α × β)) (k : α) (v : β) [DecidableEq α] :
    List (α × β) :=
  if m.any (fun p => p.1 = k) then
    m.map (fun p => if p.1 = k then (k, v) else p)
  else m ++ [(k, v)]

/-- Python dict lookup `m[k]` / `k in m`. -/
def dictLookup (m : List (α × β)) (k : α) [DecidableEq α] : Option β :=
  (m.find? (fun p => p.1 = k)).map Prod.snd

/-- A client operation body, as stored in the log: `type` and `key` are
always consulted; the remaining fields are looked up lazily and a missing
one raises a `KeyError` at its use site. -/
structure Op where
  type : String
  key : Value
  value : Option Value := none
  from_ : Option Value := none
  to_ : Option Value := none
  msg_id : Option Int := none
  client : Option String := none
  deriving DecidableEq, Repr

/-- A response body produced by the state machine. -/
structure ResBody where
  type : String
  value : Option Value := none
  code : Option Int := none
  text : Option String := none
  in_reply_to : Option Int := none
  deriving DecidableEq, Repr

/-- The `{'dest': op['client'], 'body': res}` result of `KVStore.apply`. -/
structure KVReply where
  dest : String
  body : ResBody
  deriving DecidableEq, Repr

/-- The key-value map `KVStore.state`. -/
abbrev KV := List (Value × Value)

/-- `KVStore.apply`'s final lines: `res['in_reply_to'] = op['msg_id']`
then `{'dest': op['client'], 'body': res}`; a missing `msg_id` or
`client` raises with the (possibly already mutated) state. -/
def applyFinish (st : KV) (op : Op) (res : ResBody) :
    Except KV (KV × KVReply) :=
  match op.msg_id with
  | none => .error st
  | some m =>
    match op.client with
    | none => .error st
    | some c => .ok (st, ⟨c, { res with in_reply_to := some m }⟩)

/-- `KVStore.apply(op)`: dispatch on `op['type']`, mutate the map for
writes and successful cas, and build the response.  For an unrecognized
type no branch assigns `res`, so `res['in_reply_to']` raises
(`UnboundLocalError`) with the state untouched. -/
def KVStore.apply (st : KV) (op : Op) : Except KV (KV × KVReply) :=
  if op.type = "read" then
    match dictLookup st op.key with
    | some v => applyFinish st op { type := "read_ok", value := some v }
    | none =>
      applyFinish st op { type := "error", code := some 20, text := some "not found" }
  else if op.type = "write" then
    match op.value with
    | none => .error st
    | some v => applyFinish (dictInsert st op.key v) op { type := "write_ok" }
  else if op.type = "cas" then
    match dictLookup st op.key with
    | none =>
      applyFinish st op { type := "error", code := some 20, text := some "not found" }
    | some cur =>
      match op.from_ with
      | none => .error st
      | some f =>
        if cur ≠ f then
          applyFinish st op
            { type := "error", code := some 22,
              text := some ("expected " ++ f.pystr ++ " but had " ++ cur.pystr) }
        else
          match op.to_ with
          | none => .error st
          | some t => applyFinish (dictInsert st op.key t) op { type := "cas_ok" }
  else .error st

/-- A log entry: a dict with a `term` and an `op` (`None` for the
sentinel). -/
structure LogEntry where
  term : Int
  op : Option Op := none
  deriving DecidableEq, Repr

/-- The 1-indexed Raft log. -/
structure Log where
  entries : List LogEntry
  deriving DecidableEq, Repr

/-- `Log()` constructs the log holding the sentinel `{'term': 0, 'op': None}`. -/
def Log.init : Log := ⟨[⟨0, none⟩]⟩

/-- `Log.get(i)`: `self.entries[i - 1]`, with Python's negative-index
wrapping; `none` models the `IndexError`. -/
def Log.get (l : Log) (i : Int) : Option LogEntry := pyIndex l.entries (i - 1)

/-- `Log.append(entries)`. -/
def Log.append (l : Log) (es : List LogEntry) : Log := ⟨l.entries ++ es⟩

/-- `Log.last()`: `self.entries[-1]`; `none` models the `IndexError`
on an empty list. -/
def Log.last (l : Log) : Option LogEntry := l.entries.getLast?

/-- `Log.size()`. -/
def Log.size (l : Log) : Nat := l.entries.length

/-- `Log.truncate(size)`: `self.entries = self.entries[0:size]`. -/
def Log.truncate (l : Log) (size : Int) : Log := ⟨pySliceTo l.entries size⟩

/-- `Log.from_index(i)`: raises for `i <= 0`, else `self.entries[i-1:]`. -/
def Log.from_index (l : Log) (i : Int) : Except Unit (List LogEntry) :=
  if i ≤ 0 then .error () else .ok (l.entries.drop (i - 1).toNat)

/-- `RaftNode.state`: one of nascent, follower, candidate, or leader. -/
inductive Role where
  | nascent
  | follower
  | candidate
  | leader
  deriving DecidableEq, Repr

/-- The mutable state of `RaftNode.__init__`.  The `Net` component is left
out: its message ids and callback table never feed back into this state
(callback invocations appear as separate step-relation events). -/
structure RaftNode where
  election_deadline : Int := 0
  step_down_deadline : Int := 0
  last_replication : Int := 0
  node_id : Option String := none
  node_ids : Option (List String) := none
  state : Role := .nascent
  current_term : Int := 0
  voted_for : Option String := none
  commit_index : Int := 0
  last_applied : Int := 1
  leader : Option String := none
  next_index : Option (List (String × Int)) := none
  _match_index : Option (List (String × Int)) := none
  log : Log := Log.init
  state_machine : KV := []
  deriving DecidableEq, Repr

/-- The node as constructed by `RaftNode.__init__`. -/
def RaftNode.init : RaftNode := {}

/-- `other_nodes()`: `list(self.node_ids)` then `.remove(self.node_id)`;
raises when `node_ids` is still `None` or `node_id` is not among them
(`list.remove` drops only the first occurrence, as `List.erase` does). -/
def other_nodes (nd : RaftNode) : Except Unit (List String) :=
  match nd.node_ids with
  | none => .error ()
  | some ids =>
    match nd.node_id with
    | none => .error ()
    | some i => if i ∈ ids then .ok (ids.erase i) else .error ()

/-- `match_index()`: copy `_match_index` and set our own entry to
`log.size()`.  Raises (`none`) when `_match_index` is `None`; `node_id`
is `None` only before `raft_init`, never in a leader state. -/
def RaftNode.match_index_vals (nd : RaftNode) : Option (List Int) :=
  match nd._match_index, nd.node_id with
  | some m, some i => some ((dictInsert m i (nd.log.size : Int)).map Prod.snd)
  | _, _ => none

/-- `advance_term(term)`: raises "Can't go backwards" unless the new term
is strictly larger; otherwise stores it and resets `voted_for`. -/
def advance_term (nd : RaftNode) (term : Int) : Except RaftNode RaftNode :=
  if nd.current_term < term then
    .ok { nd with current_term := term, voted_for := none }
  else .error nd

/-- `become_follower()`: `d` is the freshly computed election deadline. -/
def become_follower (nd : RaftNode) (d : Int) : RaftNode :=
  { nd with state := .follower, next_index := none, _match_index := none,
            leader := none, election_deadline := d }

/-- `maybe_step_down(remote_term)`: the guard implies `advance_term`'s
precondition, so the inlined update below agrees with `advance_term`. -/
def maybe_step_down (nd : RaftNode) (remote_term : Int) (d : Int) : RaftNode :=
  if nd.current_term < remote_term then
    become_follower { nd with current_term := remote_term, voted_for := none } d
  else nd

/-- `become_candidate()` followed by the state-relevant part of
`request_votes()`: the broadcast reads `log.last()` and `other_nodes()`
(either may raise) but mutates nothing further — the `votes` tally lives
in a closure. -/
def become_candidate (nd : RaftNode) (d1 d2 : Int) : Except RaftNode RaftNode :=
  let nd1 := { nd with state := .candidate, current_term := nd.current_term + 1,
                       voted_for := nd.node_id, leader := none,
                       election_deadline := d1, step_down_deadline := d2 }
  match nd1.log.last, other_nodes nd1 with
  | some _, .ok _ => .ok nd1
  | _, _ => .error nd1

/-- `become_leader()`: raises unless candidate; the per-follower maps are
dict comprehensions over `other_nodes()`, whose failure leaves the role
already switched to leader. -/
def become_leader (nd : RaftNode) (d : Int) : Except RaftNode RaftNode :=
  if nd.state ≠ .candidate then .error nd
  else
    let nd1 := { nd with state := Role.leader, leader := none, last_replication := 0 }
    match other_nodes nd1 with
    | .error _ => .error nd1
    | .ok others =>
      .ok { nd1 with
            next_index :=
              some (others.foldl (fun m n => dictInsert m n ((nd1.log.size : Int) + 1)) []),
            _match_index :=
              some (others.foldl (fun m n => dictInsert m n 0) []),
            step_down_deadline := d }

/-- Body of an inbound `request_vote` message. -/
structure RVBody where
  term : Int
  candidate_id : String
  last_log_index : Int
  last_log_term : Int
  deriving DecidableEq, Repr

/-- Body of a `request_vote_res` reply. -/
structure RVRes where
  term : Int
  vote_granted : Bool
  deriving DecidableEq, Repr

/-- The `request_vote` handler: step down if the candidate's term is
higher, then walk the `elif` chain; `log.last()` is consulted only when
the earlier guards fall through. -/
def request_vote (nd : RaftNode) (body : RVBody) (d1 d2 : Int) :
    Except RaftNode (RaftNode × RVRes) :=
  let nd1 := maybe_step_down nd body.term d1
  if body.term < nd1.current_term then .ok (nd1, ⟨nd1.current_term, false⟩)
  else if nd1.voted_for.isSome then .ok (nd1, ⟨nd1.current_term, false⟩)
  else
    match nd1.log.last with
    | none => .error nd1
    | some le =>
      if body.last_log_term < le.term then .ok (nd1, ⟨nd1.current_term, false⟩)
      else if body.last_log_term = le.term ∧ body.last_log_index < (nd1.log.size : Int) then
        .ok (nd1, ⟨nd1.current_term, false⟩)
      else
        .ok ({ nd1 with voted_for := some body.candidate_id, election_deadline := d2 },
             ⟨nd1.current_term, true⟩)

/-- Body of an inbound `append_entries` message. -/
structure AEBody where
  term : Int
  leader_id : String
  prev_log_index : Int
  prev_log_term : Int
  entries : List LogEntry
  leader_commit : Int
  deriving DecidableEq, Repr

/-- Body of an `append_entries_res` reply. -/
structure AERes where
  term : Int
  success : Bool
  deriving DecidableEq, Repr

/-- The `append_entries` handler.  The reply's `term` is read right after
the step-down; `prev_log_index <= 0` raises with the leader already
recorded; `log.get` failure is the caught `IndexError` (`e = None`). -/
def append_entries (nd : RaftNode) (body : AEBody) (d1 d2 : Int) :
    Except RaftNode (RaftNode × AERes) :=
  let nd1 := maybe_step_down nd body.term d1
  let resTerm := nd1.current_term
  if body.term < nd1.current_term then .ok (nd1, ⟨resTerm, false⟩)
  else
    let nd2 := { nd1 with leader := some body.leader_id, election_deadline := d2 }
    if body.prev_log_index ≤ 0 then .error nd2
    else
      match nd2.log.get body.prev_log_index with
      | none => .ok (nd2, ⟨resTerm, false⟩)
      | some e =>
        if e.term ≠ body.prev_log_term then .ok (nd2, ⟨resTerm, false⟩)
        else
          let lg := (nd2.log.truncate body.prev_log_index).append body.entries
          let nd3 := { nd2 with log := lg }
          let nd4 :=
            if nd3.commit_index < body.leader_commit then
              { nd3 with commit_index := min body.leader_commit (lg.size : Int) }
            else nd3
          .ok (nd4, ⟨resTerm, true⟩)

/-- An inbound client message `{src, dest, body}`. -/
structure KVMsg where
  src : String
  dest : String
  body : Op
  deriving DecidableEq, Repr

/-- What the `kv_req` handler emits. -/
inductive KVOut where
  | silent
  | fwd (m : KVMsg)
  | reply (code : Int) (text : String)
  deriving DecidableEq, Repr

/-- The `read`/`write`/`cas` handler `kv_req`: leaders stamp the body with
the client and append it to the log (no reply yet); others proxy to a
known leader (`elif self.leader:` is Python truthiness, so an empty
string counts as unknown) or reply error 11. -/
def kv_req (nd : RaftNode) (msg : KVMsg) : RaftNode × KVOut :=
  if nd.state = .leader then
    let op := { msg.body with client := some msg.src }
    ({ nd with log := nd.log.append [⟨nd.current_term, some op⟩] }, .silent)
  else
    match nd.leader with
    | some l =>
      if l = "" then (nd, .reply 11 "not a leader")
      else (nd, .fwd { msg with dest := l })
    | none => (nd, .reply 11 "not a leader")

/-- The `raft_init` handler: raises on a second init, else records the
cluster ids and becomes a follower. -/
def raft_init (nd : RaftNode) (nid : String) (nids : List String) (d : Int) :
    Except RaftNode RaftNode :=
  if nd.state ≠ .nascent then .error nd
  else .ok (become_follower { nd with node_id := some nid, node_ids := some nids } d)

/-- `advance_state_machine()`: when an unapplied committed entry exists,
bump `last_applied` and apply that entry's op; a leader additionally
sends the produced reply to the client, which changes no node state. -/
def advance_state_machine (nd : RaftNode) : Except RaftNode RaftNode :=
  if nd.last_applied < nd.commit_index then
    let nd1 := { nd with last_applied := nd.last_applied + 1 }
    match nd1.log.get nd1.last_applied with
    | none => .error nd1
    | some e =>
      match e.op with
      | none => .error nd1
      | some op =>
        match KVStore.apply nd1.state_machine op with
        | .error st => .error { nd1 with state_machine := st }
        | .ok (st, _res) => .ok { nd1 with state_machine := st }
  else .ok nd

/-- `advance_commit_index()`: for leaders, take the lower-biased median of
the match indices (self included at `log.size()`) and adopt it when it
exceeds `commit_index` and its entry carries the current term. -/
def advance_commit_index (nd : RaftNode) : Except RaftNode RaftNode :=
  if nd.state = .leader then
    match nd.match_index_vals with
    | none => .error nd
    | some vals =>
      match median vals with
      | none => .error nd
      | some n =>
        if nd.commit_index < n then
          match nd.log.get n with
          | none => .error nd
          | some e =>
            if e.term = nd.current_term then .ok { nd with commit_index := n }
            else .ok nd
        else .ok nd
  else .ok nd

/-- The vote-response closure `handle` inside `request_votes`:
`capturedTerm` is the closed-over send-time term and `votesWithThis` the
size of the closure-local `votes` set after adding this responder. -/
def handle_rv_response (nd : RaftNode) (capturedTerm respTerm : Int)
    (granted : Bool) (votesWithThis : Nat) (d1 d2 d3 : Int) :
    Except RaftNode RaftNode :=
  let nd1 := { nd with step_down_deadline := d1 }
  let nd2 := maybe_step_down nd1 respTerm d2
  if nd2.state = .candidate ∧ nd2.current_term = capturedTerm ∧
      respTerm = nd2.current_term ∧ granted then
    match nd2.node_ids with
    | none => .error nd2
    | some ids =>
      if majority ids.length ≤ votesWithThis then become_leader nd2 d3
      else .ok nd2
  else .ok nd2

/-- The append-entries-response closure inside `replicate_log`:
`capturedTerm`, `node`, `ni` and `nEntries` are the closed-over send-time
values; a missing `next_index`/`_match_index` map or key raises. -/
def handle_ae_response (nd : RaftNode) (capturedTerm : Int) (node : String)
    (ni : Int) (nEntries : Nat) (respTerm : Int) (success : Bool)
    (d1 d2 : Int) : Except RaftNode RaftNode :=
  let nd1 := maybe_step_down nd respTerm d1
  if nd1.state = .leader ∧ capturedTerm = nd1.current_term then
    let nd2 := { nd1 with step_down_deadline := d2 }
    if success then
      match nd2.next_index with
      | none => .error nd2
      | some nim =>
        match dictLookup nim node with
        | none => .error nd2
        | some cur =>
          let nd3 := { nd2 with
            next_index := some (dictInsert nim node (max cur (ni + (nEntries : Int)))) }
          match nd3._match_index with
          | none => .error nd3
          | some mim =>
            match dictLookup mim node with
            | none => .error nd3
            | some curm =>
              .ok { nd3 with
                _match_index :=
                  some (dictInsert mim node (max curm (ni - 1 + (nEntries : Int)))) }
    else
      match nd2.next_index with
      | none => .error nd2
      | some nim =>
        match dictLookup nim node with
        | none => .error nd2
        | some cur => .ok { nd2 with next_index := some (dictInsert nim node (cur - 1)) }
  else .ok nd1

/-- The `election()` tick, taken when the election deadline has passed:
followers and candidates start a candidacy, others re-arm the deadline. -/
def election (nd : RaftNode) (d1 d2 : Int) : Except RaftNode RaftNode :=
  if nd.state = .follower ∨ nd.state = .candidate then become_candidate nd d1 d2
  else .ok { nd with election_deadline := d1 }

/-- The `step_down_on_timeout()` tick, taken when the step-down deadline
has passed: only leaders react. -/
def step_down_on_timeout (nd : RaftNode) (d : Int) : RaftNode :=
  if nd.state = .leader then become_follower nd d else nd

/-- The node state an `Except`-modelled handler leaves behind: the `ok`
state, or the partially mutated state carried by the raise (the main
loop catches every exception and keeps running). -/
def exceptState (r : Except RaftNode (RaftNode × α)) : RaftNode :=
  match r with
  | .ok (n, _) => n
  | .error n => n

/-- As `exceptState`, for handlers producing no reply value. -/
def exceptState1 (r : Except RaftNode RaftNode) : RaftNode :=
  match r with
  | .ok n => n
  | .error n => n

/-- One state-mutating event of the main loop: an inbound message handled,
an RPC-response callback fired, or a timeout/advancement tick.  Deadline
values and the closure-captured data of callbacks are universally
quantified oracles. -/
inductive Step : RaftNode → RaftNode → Prop where
  | initStep (nd : RaftNode) (nid : String) (nids : List String) (d : Int) :
      Step nd (exceptState1 (raft_init nd nid nids d))
  | rvStep (nd : RaftNode) (body : RVBody) (d1 d2 : Int) :
      Step nd (exceptState (request_vote nd body d1 d2))
  | aeStep (nd : RaftNode) (body : AEBody) (d1 d2 : Int) :
      Step nd (exceptState (append_entries nd body d1 d2))
  | kvStep (nd : RaftNode) (msg : KVMsg) :
      Step nd (kv_req nd msg).1
  | rvRespStep (nd : RaftNode) (capturedTerm respTerm : Int) (granted : Bool)
      (votesWithThis : Nat) (d1 d2 d3 : Int) :
      Step nd (exceptState1
        (handle_rv_response nd capturedTerm respTerm granted votesWithThis d1 d2 d3))
  | aeRespStep (nd : RaftNode) (capturedTerm : Int) (node : String) (ni : Int)
      (nEntries : Nat) (respTerm : Int) (success : Bool) (d1 d2 : Int) :
      Step nd (exceptState1
        (handle_ae_response nd capturedTerm node ni nEntries respTerm success d1 d2))
  | electionStep (nd : RaftNode) (d1 d2 : Int) :
      Step nd (exceptState1 (election nd d1 d2))
  | stepDownStep (nd : RaftNode) (d : Int) :
      Step nd (step_down_on_timeout nd d)
  | commitStep (nd : RaftNode) :
      Step nd (exceptState1 (advance_commit_index nd))
  | smStep (nd : RaftNode) :
      Step nd (exceptState1 (advance_state_machine nd))
  | replicateStep (nd : RaftNode) (t : Int) (did : Bool) :
      Step nd (if did then { nd with last_replication := t } else nd)

/-- States reachable from the freshly constructed node by any sequence of
handled messages, fired callbacks, and ticks. -/
def Reachable (nd : RaftNode) : Prop :=
  Relation.ReflTransGen Step RaftNode.init nd

/-! ## Concrete states used by counterexamples and witnesses -/

/-- A follower whose log carries five term-1 entries past the sentinel and
whose commit index already stands at 5. -/
def exRegressionNode : RaftNode :=
  { state := .follower, current_term := 1, commit_index := 5,
    log := ⟨⟨0, none⟩ :: List.replicate 5 ⟨1, none⟩⟩ }

/-- A stale-but-matching request: the sentinel satisfies the consistency
check, no entries, and a leader commit far ahead. -/
def exRegressionBody : AEBody :=
  { term := 1, leader_id := "n2", prev_log_index := 1, prev_log_term := 0,
    entries := [], leader_commit := 10 }

/-- A follower whose log carries two term-1 entries past the sentinel. -/
def exHeartbeatNode : RaftNode :=
  { state := .follower, current_term := 1, commit_index := 0,
    log := ⟨⟨0, none⟩ :: [⟨1, none⟩, ⟨1, none⟩]⟩ }

/-- A pure heartbeat matching at the sentinel. -/
def exHeartbeatBody : AEBody :=
  { term := 1, leader_id := "n2", prev_log_index := 1, prev_log_term := 0,
    entries := [], leader_commit := 0 }

/-- A leader of `{n1,n2,n3}` with match indices `n2 ↦ 0`, `n3 ↦ 2` and a
three-entry log. -/
def exLeaderNode : RaftNode :=
  { state := .leader, current_term := 1, commit_index := 0, node_id := some "n1",
    node_ids := some ["n1", "n2", "n3"],
    _match_index := some [("n2", 0), ("n3", 2)],
    next_index := some [("n2", 1), ("n3", 3)],
    log := ⟨⟨0, none⟩ :: [⟨1, none⟩, ⟨1, none⟩]⟩ }

/-! ## Projection lemmas for the compound operations -/

@[simp] lemma maybe_step_down_last_applied (nd : RaftNode) (rt d : Int) :
    (maybe_step_down nd rt d).last_applied = nd.last_applied := by
  unfold maybe_step_down become_follower; split <;> rfl

@[simp] lemma maybe_step_down_commit_index (nd : RaftNode) (rt d : Int) :
    (maybe_step_down nd rt d).commit_index = nd.commit_index := by
  unfold maybe_step_down become_follower; split <;> rfl

@[simp] lemma maybe_step_down_log (nd : RaftNode) (rt d : Int) :
    (maybe_step_down nd rt d).log = nd.log := by
  unfold maybe_step_down become_follower; split <;> rfl

@[simp] lemma maybe_step_down_state_machine (nd : RaftNode) (rt d : Int) :
    (maybe_step_down nd rt d).state_machine = nd.state_machine := by
  unfold maybe_step_down become_follower; split <;> rfl

lemma maybe_step_down_term_le (nd : RaftNode) (rt d : Int) :
    nd.current_term ≤ (maybe_step_down nd rt d).current_term := by
  unfold maybe_step_down become_follower
  split
  · next h => exact le_of_lt h
  · exact le_refl _

lemma log_get_pos_bound {l : Log} {i : Int} {e : LogEntry}
    (h1 : 1 ≤ i) (h : l.get i = some e) : i ≤ (l.size : Int) := by
  unfold Log.get pyIndex at h
  split_ifs at h with h2 h3
  · obtain ⟨hlt, -⟩ := List.get?_eq_some.mp h
    simp only [Log.size]
    omega
  · omega

/-- The invariant fields of C4, tracked through every step. -/
def BasicBounds (nd : RaftNode) : Prop :=
  1 ≤ nd.last_applied ∧ 0 ≤ nd.commit_index ∧ 1 ≤ nd.log.size

@[simp] lemma exceptState_ok (n : RaftNode) (res : α) :
    exceptState (Except.ok (n, res)) = n := rfl

@[simp] lemma exceptState_error (n : RaftNode) :
    exceptState (α := α) (Except.error n) = n := rfl

@[simp] lemma exceptState1_ok (n : RaftNode) :
    exceptState1 (Except.ok n) = n := rfl

@[simp] lemma exceptState1_error (n : RaftNode) :
    exceptState1 (Except.error n) = n := rfl

lemma bounds_raft_init (nd : RaftNode) (nid : String) (nids : List String)
    (d : Int) (h : BasicBounds nd) :
    BasicBounds (exceptState1 (raft_init nd nid nids d)) ∧
    (exceptState1 (raft_init nd nid nids d)).current_term = nd.current_term := by
  unfold BasicBounds at *
  unfold raft_init
  split <;> simp_all [become_follower]

lemma bounds_request_vote (nd : RaftNode) (body : RVBody) (d1 d2 : Int)
    (h : BasicBounds nd) :
    BasicBounds (exceptState (request_vote nd body d1 d2)) ∧
    nd.current_term ≤ (exceptState (request_vote nd body d1 d2)).current_term := by
  have hterm := maybe_step_down_term_le nd body.term d1
  unfold BasicBounds at *
  simp only [request_vote]
  repeat' split
  all_goals simp_all

lemma bounds_append_entries (nd : RaftNode) (body : AEBody) (d1 d2 : Int)
    (h : BasicBounds nd) :
    BasicBounds (exceptState (append_entries nd body d1 d2)) ∧
    nd.current_term ≤ (exceptState (append_entries nd body d1 d2)).current_term := by
  have hterm := maybe_step_down_term_le nd body.term d1
  obtain ⟨h1, h2, h3⟩ := h
  simp only [append_entries]
  split
  · exact ⟨⟨by simp [h1], by simp [h2], by simpa using h3⟩, by simpa using hterm⟩
  · next h' =>
    split
    · exact ⟨⟨by simp [h1], by simp [h2], by simpa using h3⟩, by simpa using hterm⟩
    · next hple =>
      split
      · exact ⟨⟨by simp [h1], by simp [h2], by simpa using h3⟩, by simpa using hterm⟩
      · next e hget =>
        split
        · exact ⟨⟨by simp [h1], by simp [h2], by simpa using h3⟩, by simpa using hterm⟩
        · have hple' : 1 ≤ body.prev_log_index := by omega
          have hget' : nd.log.get body.prev_log_index = some e := by
            rw [← maybe_step_down_log nd body.term d1]
            exact hget
          have hbound : body.prev_log_index ≤ (nd.log.size : Int) :=
            log_get_pos_bound hple' hget'
          have hsz : 1 ≤ (((maybe_step_down nd body.term d1).log.truncate
              body.prev_log_index).append body.entries).size := by
            simp only [Log.truncate, Log.append, Log.size, pySliceTo,
              maybe_step_down_log, List.length_append]
            rw [if_neg (by omega : ¬ body.prev_log_index < 0)]
            simp only [List.length_take, Log.size] at *
            omega
          refine ⟨⟨?_, ?_, ?_⟩, ?_⟩
          · split <;> simp [h1]
          · split
            · next hci =>
              simp only [maybe_step_down_commit_index] at hci
              simp only [exceptState_ok]
              omega
            · simp [h2]
          · split <;> simpa using hsz
          · split <;> simpa using hterm

lemma bounds_kv_req (nd : RaftNode) (msg : KVMsg) (h : BasicBounds nd) :
    BasicBounds (kv_req nd msg).1 ∧
    (kv_req nd msg).1.current_term = nd.current_term := by
  unfold BasicBounds at *
  simp only [kv_req]
  repeat' split
  all_goals simp_all [Log.append, Log.size]

lemma bounds_become_leader (nd : RaftNode) (d : Int) (h : BasicBounds nd) :
    BasicBounds (exceptState1 (become_leader nd d)) ∧
    (exceptState1 (become_leader nd d)).current_term = nd.current_term := by
  unfold BasicBounds at *
  simp only [become_leader]
  repeat' split
  all_goals simp_all

lemma bounds_rv_response (nd : RaftNode) (capturedTerm respTerm : Int)
    (granted : Bool) (votesWithThis : Nat) (d1 d2 d3 : Int) (h : BasicBounds nd) :
    BasicBounds (exceptState1
      (handle_rv_response nd capturedTerm respTerm granted votesWithThis d1 d2 d3)) ∧
    nd.current_term ≤ (exceptState1
      (handle_rv_response nd capturedTerm respTerm granted votesWithThis d1 d2 d3)).current_term := by
  have hterm : nd.current_term ≤
      (maybe_step_down { nd with step_down_deadline := d1 } respTerm d2).current_term :=
    maybe_step_down_term_le { nd with step_down_deadline := d1 } respTerm d2
  have hmb : BasicBounds (maybe_step_down { nd with step_down_deadline := d1 } respTerm d2) := by
    obtain ⟨h1, h2, h3⟩ := h
    refine ⟨?_, ?_, ?_⟩ <;> simp [h1, h2, h3]
  simp only [handle_rv_response]
  split
  · split
    · exact ⟨by simpa using hmb, by simpa using hterm⟩
    · split
      · have hl := bounds_become_leader
          (maybe_step_down { nd with step_down_deadline := d1 } respTerm d2) d3 hmb
        exact ⟨hl.1, le_trans hterm (le_of_eq hl.2.symm)⟩
      · exact ⟨by simpa using hmb, by simpa using hterm⟩
  · exact ⟨by simpa using hmb, by simpa using hterm⟩

lemma bounds_ae_response (nd : RaftNode) (capturedTerm : Int) (node : String)
    (ni : Int) (nEntries : Nat) (respTerm : Int) (success : Bool) (d1 d2 : Int)
    (h : BasicBounds nd) :
    BasicBounds (exceptState1
      (handle_ae_response nd capturedTerm node ni nEntries respTerm success d1 d2)) ∧
    nd.current_term ≤ (exceptState1
      (handle_ae_response nd capturedTerm node ni nEntries respTerm success d1 d2)).current_term := by
  have hterm := maybe_step_down_term_le nd respTerm d1
  unfold BasicBounds at *
  simp only [handle_ae_response]
  repeat' split
  all_goals simp_all

lemma bounds_become_candidate (nd : RaftNode) (d1 d2 : Int) (h : BasicBounds nd) :
    BasicBounds (exceptState1 (become_candidate nd d1 d2)) ∧
    nd.current_term ≤ (exceptState1 (become_candidate nd d1 d2)).current_term := by
  unfold BasicBounds at *
  simp only [become_candidate]
  repeat' split
  all_goals simp_all

lemma bounds_election (nd : RaftNode) (d1 d2 : Int) (h : BasicBounds nd) :
    BasicBounds (exceptState1 (election nd d1 d2)) ∧
    nd.current_term ≤ (exceptState1 (election nd d1 d2)).current_term := by
  unfold election
  split
  · exact bounds_become_candidate nd d1 d2 h
  · unfold BasicBounds at *
    simp_all

lemma bounds_step_down (nd : RaftNode) (d : Int) (h : BasicBounds nd) :
    BasicBounds (step_down_on_timeout nd d) ∧
    (step_down_on_timeout nd d).current_term = nd.current_term := by
  unfold BasicBounds at *
  unfold step_down_on_timeout
  split <;> simp_all [become_follower]

lemma bounds_advance_commit (nd : RaftNode) (h : BasicBounds nd) :
    BasicBounds (exceptState1 (advance_commit_index nd)) ∧
    (exceptState1 (advance_commit_index nd)).current_term = nd.current_term := by
  unfold BasicBounds at *
  simp only [advance_commit_index]
  repeat' split
  all_goals simp_all
  omega

lemma bounds_advance_sm (nd : RaftNode) (h : BasicBounds nd) :
    BasicBounds (exceptState1 (advance_state_machine nd)) ∧
    (exceptState1 (advance_state_machine nd)).current_term = nd.current_term := by
  unfold BasicBounds at *
  simp only [advance_state_machine]
  repeat' split
  all_goals simp_all
  all_goals omega

lemma step_preserves {a b : RaftNode} (h : Step a b) (ha : BasicBounds a) :
    BasicBounds b ∧ a.current_term ≤ b.current_term := by
  cases h with
  | initStep nid nids d =>
      have := bounds_raft_init a nid nids d ha
      exact ⟨this.1, le_of_eq this.2.symm⟩
  | rvStep body d1 d2 => exact bounds_request_vote a body d1 d2 ha
  | aeStep body d1 d2 => exact bounds_append_entries a body d1 d2 ha
  | kvStep msg =>
      have := bounds_kv_req a msg ha
      exact ⟨this.1, le_of_eq this.2.symm⟩
  | rvRespStep ct rt granted v d1 d2 d3 =>
      exact bounds_rv_response a ct rt granted v d1 d2 d3 ha
  | aeRespStep ct node ni nE rt succ d1 d2 =>
      exact bounds_ae_response a ct node ni nE rt succ d1 d2 ha
  | electionStep d1 d2 => exact bounds_election a d1 d2 ha
  | stepDownStep d =>
      have := bounds_step_down a d ha
      exact ⟨this.1, le_of_eq this.2.symm⟩
  | commitStep =>
      have := bounds_advance_commit a ha
      exact ⟨this.1, le_of_eq this.2.symm⟩
  | smStep =>
      have := bounds_advance_sm a ha
      exact ⟨this.1, le_of_eq this.2.symm⟩
  | replicateStep t did =>
      constructor
      · split <;> simpa [BasicBounds] using ha
      · split <;> simp

/-! ## Claim theorems -/

/-- C6: `KVStore.apply` behaves exactly per the table — a read returns the
present value (or error 20) leaving the state unchanged, a write stores
the value and replies `write_ok`, and cas replies error 20 on a missing
key, error 22 on a mismatch (state unchanged in all three), and stores
`to` with `cas_ok` when the current value equals `from`. -/
theorem KVStore_apply_table (st : KV) (op : Op) (m : Int) (c : String)
    (hm : op.msg_id = some m) (hc : op.client = some c) :
    (∀ v, op.type = "read" → dictLookup st op.key = some v →
      KVStore.apply st op =
        .ok (st, ⟨c, { type := "read_ok", value := some v, in_reply_to := some m }⟩)) ∧
    (op.type = "read" → dictLookup st op.key = none →
      KVStore.apply st op =
        .ok (st, ⟨c, { type := "error", code := some 20, text := some "not found",
                       in_reply_to := some m }⟩)) ∧
    (∀ v, op.type = "write" → op.value = some v →
      KVStore.apply st op =
        .ok (dictInsert st op.key v, ⟨c, { type := "write_ok", in_reply_to := some m }⟩)) ∧
    (op.type = "cas" → dictLookup st op.key = none →
      KVStore.apply st op =
        .ok (st, ⟨c, { type := "error", code := some 20, text := some "not found",
                       in_reply_to := some m }⟩)) ∧
    (∀ f cur, op.type = "cas" → op.from_ = some f →
      dictLookup st op.key = some cur → cur ≠ f →
      KVStore.apply st op =
        .ok (st, ⟨c, { type := "error", code := some 22,
                       text := some ("expected " ++ f.pystr ++ " but had " ++ cur.pystr),
                       in_reply_to := some m }⟩)) ∧
    (∀ f t, op.type = "cas" → op.from_ = some f → op.to_ = some t →
      dictLookup st op.key = some f →
      KVStore.apply st op =
        .ok (dictInsert st op.key t, ⟨c, { type := "cas_ok", in_reply_to := some m }⟩)) := by
  refine ⟨?_, ?_, ?_, ?_, ?_, ?_⟩
  · intro v hty hl; simp [KVStore.apply, applyFinish, hty, hl, hm, hc]
  · intro hty hl; simp [KVStore.apply, applyFinish, hty, hl, hm, hc]
  · intro v hty hv; simp [KVStore.apply, applyFinish, hty, hv, hm, hc]
  · intro hty hl; simp [KVStore.apply, applyFinish, hty, hl, hm, hc]
  · intro f cur hty hf hl hne; simp [KVStore.apply, applyFinish, hty, hf, hl, hne, hm, hc]
  · intro f t hty hf ht hl; simp [KVStore.apply, applyFinish, hty, hf, ht, hl, hm, hc]

/-- Witness for C6: reading a missing key from the empty store replies
error 20 and keeps the store empty. -/
theorem KVStore_apply_table_witness :
    KVStore.apply [] { type := "read", key := .str "z", msg_id := some 20, client := some "c" } =
      .ok ([], ⟨"c", { type := "error", code := some 20, text := some "not found",
                       in_reply_to := some 20 }⟩) :=
  (KVStore_apply_table []
      { type := "read", key := .str "z", msg_id := some 20, client := some "c" }
      20 "c" rfl rfl).2.1 rfl rfl

/-- C10: applying an op whose type is none of read/write/cas raises — no
branch ever assigns the response, so `res['in_reply_to']` fails — and the
key-value map is untouched. -/
theorem KVStore_apply_unknown_type (st : KV) (op : Op)
    (h1 : op.type ≠ "read") (h2 : op.type ≠ "write") (h3 : op.type ≠ "cas") :
    KVStore.apply st op = .error st := by
  simp [KVStore.apply, h1, h2, h3]

/-- Witness for C10: a `delete` op raises with the singleton store
unchanged. -/
theorem KVStore_apply_unknown_type_witness :
    KVStore.apply [(Value.str "x", Value.int 1)]
      { type := "delete", key := .str "x", msg_id := some 1, client := some "c" } =
      .error [(Value.str "x", Value.int 1)] :=
  KVStore_apply_unknown_type [(Value.str "x", Value.int 1)]
    { type := "delete", key := .str "x", msg_id := some 1, client := some "c" }
    (by decide) (by decide) (by decide)

/-- C8: `kv_req` on a read/write/cas message — a leader stamps the body
with the client and appends `{term, op}` to the log replying nothing, a
non-leader proxies to a known leader with `dest` rewritten, and otherwise
replies error 11 "not a leader". -/
theorem kv_req_spec (nd : RaftNode) (msg : KVMsg) :
    (nd.state = .leader →
      kv_req nd msg =
        ({ nd with log := (nd.log.append
              [⟨nd.current_term, some { msg.body with client := some msg.src }⟩]) },
         .silent)) ∧
    (∀ l, nd.state ≠ .leader → nd.leader = some l → l ≠ "" →
      kv_req nd msg = (nd, .fwd { msg with dest := l })) ∧
    (nd.state ≠ .leader → nd.leader = none →
      kv_req nd msg = (nd, .reply 11 "not a leader")) := by
  refine ⟨?_, ?_, ?_⟩
  · intro h; simp [kv_req, h]
  · intro l h hl hne; simp [kv_req, h, hl, hne]
  · intro h hl; simp [kv_req, h, hl]

/-- Witness for C8: the freshly constructed node (no role, no known
leader) answers a client write with error 11. -/
theorem kv_req_spec_witness :
    kv_req RaftNode.init
        { src := "c1", dest := "n1",
          body := { type := "write", key := .str "x", value := some (.int 7) } } =
      (RaftNode.init, .reply 11 "not a leader") :=
  (kv_req_spec RaftNode.init
      { src := "c1", dest := "n1",
        body := { type := "write", key := .str "x", value := some (.int 7) } }).2.2
    (by decide) rfl

/-- C9 counterexample: index 0 lies outside `1..size` of the fresh log,
yet `Log.get 0` returns the sentinel (Python's `entries[-1]`) instead of
raising. -/
theorem log_get_zero_counterexample :
    Log.init.size = 1 ∧ Log.init.get 0 = some ⟨0, none⟩ := by
  constructor
  · rfl
  · rfl

/-- C9 amended: `Log.get(i)` raises exactly when `i > size` or
`i ≤ -size`; for `-size < i ≤ 0` Python's negative indexing returns the
entry at 0-based position `size + i - 1` (so `get 0` is the last entry),
and for `1 ≤ i` it reads position `i - 1`. -/
theorem log_get_amended_spec (l : Log) (i : Int) :
    (l.get i = none ↔ ((l.size : Int) < i ∨ i ≤ -(l.size : Int))) ∧
    (-(l.size : Int) < i → i ≤ 0 →
      l.get i = l.entries.get? ((l.size : Int) + i - 1).toNat) ∧
    (1 ≤ i → l.get i = l.entries.get? (i - 1).toNat) := by
  refine ⟨?_, ?_, ?_⟩
  · unfold Log.get pyIndex Log.size
    split_ifs with h1 h2
    · rw [List.get?_eq_none]
      omega
    · rw [List.get?_eq_none]
      omega
    · simp only [true_iff]
      omega
  · intro hlo hhi
    simp only [Log.size] at hlo hhi
    unfold Log.get pyIndex
    split_ifs with h1 h2
    · omega
    · congr 1
      simp only [Log.size]
      omega
    · omega
  · intro h1
    unfold Log.get pyIndex
    split_ifs with h2 h3
    · rfl
    · omega
    · omega

/-- Witness for C9 amended: on the fresh log, `get 0` reads the entry at
0-based position `1 + 0 - 1 = 0`. -/
theorem log_get_amended_spec_witness :
    Log.init.get 0 = Log.init.entries.get? ((Log.init.size : Int) + 0 - 1).toNat :=
  (log_get_amended_spec Log.init 0).2.1 (by decide) (by decide)

/-- C1: the code contradicts the claimed
`commit_index = max(commit_index, min(leader_commit, log.size()))` — on a
matching request whose truncation shrinks the log below the current
commit index while `leader_commit` is ahead of it, the handler *lowers*
`commit_index` (here from 5 to 1) where the claimed formula keeps 5. -/
theorem append_entries_commit_regression :
    ∃ nd' res, append_entries exRegressionNode exRegressionBody 0 0 = .ok (nd', res) ∧
      res.success = true ∧ res.term = 1 ∧
      exRegressionNode.commit_index = 5 ∧ nd'.commit_index = 1 ∧
      nd'.commit_index < exRegressionNode.commit_index ∧
      nd'.commit_index ≠
        max exRegressionNode.commit_index
          (min exRegressionBody.leader_commit (nd'.log.size : Int)) := by
  refine ⟨_, _, rfl, ?_, ?_, ?_, ?_, ?_, ?_⟩ <;> decide

/-- C5 counterexample: a pure heartbeat (`entries = []`) whose
`prev_log_index`/`prev_log_term` match at the sentinel shrinks the
three-entry log to one entry. -/
theorem heartbeat_truncates_log :
    exHeartbeatBody.entries = [] ∧
    exHeartbeatNode.log.get exHeartbeatBody.prev_log_index =
      some ⟨exHeartbeatBody.prev_log_term, none⟩ ∧
    exHeartbeatNode.log.size = 3 ∧
    (∃ nd' res, append_entries exHeartbeatNode exHeartbeatBody 0 0 = .ok (nd', res) ∧
      res.success = true ∧ nd'.log.size = 1 ∧ nd'.log ≠ exHeartbeatNode.log) := by
  refine ⟨rfl, rfl, rfl, _, _, rfl, ?_, ?_, ?_⟩ <;> decide

/-- C5 amended: a matching empty-entries request with an in-date term does
not leave the log unchanged in general — it replaces the log by its first
`prev_log_index` entries (unchanged exactly when `prev_log_index` equals
`log.size()`), leaves `last_applied` and the KV state untouched, replies
success, and updates `commit_index` only when it is below `leader_commit`,
to `min(leader_commit, prev_log_index)`. -/
theorem append_entries_heartbeat_spec (nd : RaftNode) (body : AEBody) (d1 d2 : Int)
    (e : LogEntry)
    (hemp : body.entries = [])
    (hterm : ¬ body.term < (maybe_step_down nd body.term d1).current_term)
    (hpli : 1 ≤ body.prev_log_index)
    (hget : nd.log.get body.prev_log_index = some e)
    (hplt : e.term = body.prev_log_term) :
    ∃ nd' res, append_entries nd body d1 d2 = .ok (nd', res) ∧ res.success = true ∧
      nd'.log.entries = nd.log.entries.take body.prev_log_index.toNat ∧
      (nd'.log = nd.log ↔ body.prev_log_index = (nd.log.size : Int)) ∧
      nd'.last_applied = nd.last_applied ∧
      nd'.state_machine = nd.state_machine ∧
      nd'.commit_index =
        (if nd.commit_index < body.leader_commit
         then min body.leader_commit body.prev_log_index else nd.commit_index) := by
  have hbound : body.prev_log_index ≤ (nd.log.size : Int) := log_get_pos_bound hpli hget
  simp only [append_entries]
  rw [if_neg hterm]
  simp only [maybe_step_down_log]
  rw [if_neg (by omega : ¬ body.prev_log_index ≤ 0)]
  simp only [hget]
  rw [if_neg (by simp [hplt] : ¬ e.term ≠ body.prev_log_term)]
  have hentries :
      ((nd.log.truncate body.prev_log_index).append body.entries).entries =
        nd.log.entries.take body.prev_log_index.toNat := by
    simp only [Log.truncate, Log.append, pySliceTo, hemp]
    rw [if_neg (by omega : ¬ body.prev_log_index < 0)]
    simp
  have hbound' : body.prev_log_index ≤ (nd.log.entries.length : Int) := by
    simpa [Log.size] using hbound
  have hsize :
      (((nd.log.truncate body.prev_log_index).append body.entries).size : Int) =
        body.prev_log_index := by
    simp only [Log.size, hentries, List.length_take]
    omega
  have hlogeq : (nd.log.truncate body.prev_log_index).append body.entries =
      (⟨nd.log.entries.take body.prev_log_index.toNat⟩ : Log) := by
    rw [← hentries]
  have hiff : ((⟨nd.log.entries.take body.prev_log_index.toNat⟩ : Log) = nd.log ↔
      body.prev_log_index = (nd.log.size : Int)) := by
    constructor
    · intro hEq
      have hlen := congrArg (fun l => l.entries.length) hEq
      simp only [List.length_take, Log.size] at hlen ⊢
      omega
    · intro hEq
      have hlen : body.prev_log_index.toNat = nd.log.entries.length := by
        simp only [Log.size] at hEq
        omega
      simp [hlen, List.take_length]
  refine ⟨_, _, rfl, rfl, ?_, ?_, ?_, ?_, ?_⟩
  · split <;> simpa using hentries
  · split <;>
      · rw [hlogeq]
        exact hiff
  · split <;> simp
  · split <;> simp
  · simp only [maybe_step_down_commit_index]
    split
    · simp [hsize]
    · simp

/-- Witness for C5 amended: the three-entry follower keeps only the first
entry after a matching heartbeat at the sentinel. -/
theorem append_entries_heartbeat_spec_witness :
    ∃ nd' res, append_entries exHeartbeatNode exHeartbeatBody 0 0 = .ok (nd', res) ∧
      res.success = true ∧
      nd'.log.entries = exHeartbeatNode.log.entries.take 1 := by
  obtain ⟨nd', res, h1, h2, h3, -⟩ :=
    append_entries_heartbeat_spec exHeartbeatNode exHeartbeatBody 0 0 ⟨0, none⟩ rfl
      (by decide) (by decide) rfl rfl
  exact ⟨nd', res, h1, h2, h3⟩

/-- C3: on `request_vote`, after the step-down the vote is granted exactly
when the candidate's term is no lower than ours, we have not voted, and
the candidate's log is at least as up to date; granting records the vote
and re-arms the election deadline, and the reply always carries the
post-step-down term and the grant flag. -/
theorem request_vote_spec (nd : RaftNode) (body : RVBody) (d1 d2 : Int)
    (le : LogEntry) (hlast : nd.log.last = some le) :
    ∃ nd' res, request_vote nd body d1 d2 = .ok (nd', res) ∧
      res.term = (maybe_step_down nd body.term d1).current_term ∧
      (res.vote_granted = true ↔
        ((maybe_step_down nd body.term d1).current_term ≤ body.term ∧
         (maybe_step_down nd body.term d1).voted_for = none ∧
         (le.term < body.last_log_term ∨
           (body.last_log_term = le.term ∧ (nd.log.size : Int) ≤ body.last_log_index)))) ∧
      (res.vote_granted = true →
        nd' = { maybe_step_down nd body.term d1 with
                voted_for := some body.candidate_id, election_deadline := d2 }) ∧
      (res.vote_granted = false → nd' = maybe_step_down nd body.term d1) := by
  have hlast1 : (maybe_step_down nd body.term d1).log.last = some le := by
    rw [maybe_step_down_log]; exact hlast
  simp only [request_vote, hlast1]
  by_cases h1 : body.term < (maybe_step_down nd body.term d1).current_term
  · rw [if_pos h1]
    refine ⟨_, _, rfl, rfl, ?_, by simp, by simp⟩
    simp only [Bool.false_eq_true, false_iff]
    rintro ⟨hle, -, -⟩
    omega
  · rw [if_neg h1]
    by_cases h2 : (maybe_step_down nd body.term d1).voted_for.isSome
    · rw [if_pos h2]
      refine ⟨_, _, rfl, rfl, ?_, by simp, by simp⟩
      simp only [Bool.false_eq_true, false_iff]
      rintro ⟨-, hv, -⟩
      rw [hv] at h2
      cases h2
    · by_cases h3 : body.last_log_term < le.term
      · rw [if_neg h2, if_pos h3]
        refine ⟨_, _, rfl, rfl, ?_, by simp, by simp⟩
        simp only [Bool.false_eq_true, false_iff]
        rintro ⟨-, -, h | ⟨h, -⟩⟩ <;> omega
      · by_cases h4 : body.last_log_term = le.term ∧
            body.last_log_index < ((maybe_step_down nd body.term d1).log.size : Int)
        · rw [if_neg h2, if_neg h3, if_pos h4]
          refine ⟨_, _, rfl, rfl, ?_, by simp, by simp⟩
          simp only [Bool.false_eq_true, false_iff]
          rw [maybe_step_down_log] at h4
          rintro ⟨-, -, h | ⟨-, h⟩⟩ <;> omega
        · rw [if_neg h2, if_neg h3, if_neg h4]
          refine ⟨_, _, rfl, rfl, ?_, by simp, by simp⟩
          simp only [true_iff]
          rw [maybe_step_down_log] at h4
          refine ⟨by omega, ?_, ?_⟩
          · rcases hv : (maybe_step_down nd body.term d1).voted_for with _ | v
            · rfl
            · rw [hv] at h2
              cases h2 rfl
          · rcases lt_trichotomy body.last_log_term le.term with h | h | h
            · omega
            · right
              exact ⟨h, by omega⟩
            · left
              omega

/-- Witness for C3: a fresh node grants a term-1 candidate whose log is
level with the sentinel, recording the vote. -/
theorem request_vote_spec_witness :
    ∃ nd' res,
      request_vote RaftNode.init ⟨1, "n2", 1, 0⟩ 7 8 = .ok (nd', res) ∧
      res.vote_granted = true := by
  obtain ⟨nd', res, heq, -, hiff, -, -⟩ :=
    request_vote_spec RaftNode.init ⟨1, "n2", 1, 0⟩ 7 8 ⟨0, none⟩ rfl
  exact ⟨nd', res, heq, hiff.mpr (by decide)⟩

/-- C2: on a leader's commit-advancement tick, with `n` the lower-biased
median of the match indices of all nodes (self standing at `log.size()`),
the tick sets `commit_index` to `n` exactly when `n` is above the current
commit index and the entry at `n` carries the current term, and leaves the
whole state unchanged otherwise; no exception escapes unless the median
points outside the log while above `commit_index`. -/
theorem advance_commit_index_spec (nd : RaftNode) (m : List (String × Int))
    (i : String) (n : Int)
    (hL : nd.state = .leader) (hm : nd._match_index = some m)
    (hi : nd.node_id = some i)
    (hmed : median ((dictInsert m i (nd.log.size : Int)).map Prod.snd) = some n) :
    (∀ nd', advance_commit_index nd = .ok nd' →
      nd' = if nd.commit_index < n ∧
              (nd.log.get n).map LogEntry.term = some nd.current_term
            then { nd with commit_index := n } else nd) ∧
    ((nd.log.get n).isSome ∨ ¬ nd.commit_index < n →
      ∃ nd', advance_commit_index nd = .ok nd') := by
  have hvals : nd.match_index_vals =
      some ((dictInsert m i (nd.log.size : Int)).map Prod.snd) := by
    simp [RaftNode.match_index_vals, hm, hi]
  have key : advance_commit_index nd =
      (if nd.commit_index < n then
        match nd.log.get n with
        | none => .error nd
        | some e =>
          if e.term = nd.current_term then .ok { nd with commit_index := n }
          else .ok nd
      else .ok nd) := by
    simp only [advance_commit_index, hL, hvals, hmed, if_true]
  constructor
  · intro nd' hok
    rw [key] at hok
    split at hok
    · next hlt =>
        split at hok
        · exact absurd hok (by simp)
        · next e hg =>
            split at hok
            · next ht =>
                cases hok
                rw [if_pos ⟨hlt, by simp [hg, ht]⟩]
            · next ht =>
                cases hok
                rw [if_neg ?_]
                rintro ⟨-, hx⟩
                rw [hg] at hx
                exact ht (by simpa using hx)
    · next hlt =>
        cases hok
        rw [if_neg ?_]
        rintro ⟨hx, -⟩
        exact hlt hx
  · intro h
    rw [key]
    by_cases hlt : nd.commit_index < n
    · rw [if_pos hlt]
      rcases hg : nd.log.get n with _ | e
      · rcases h with h | h
        · rw [hg] at h
          simp at h
        · exact absurd hlt h
      · simp only [hg]
        by_cases ht : e.term = nd.current_term
        · rw [if_pos ht]
          exact ⟨_, rfl⟩
        · rw [if_neg ht]
          exact ⟨_, rfl⟩
    · rw [if_neg hlt]
      exact ⟨_, rfl⟩

/-- Witness for C2: the three-node leader with matches `[0, 2]` and a
three-entry log commits the median index 2. -/
theorem advance_commit_index_spec_witness :
    ∃ nd', advance_commit_index exLeaderNode = .ok nd' ∧ nd'.commit_index = 2 := by
  obtain ⟨hval, hex⟩ :=
    advance_commit_index_spec exLeaderNode [("n2", 0), ("n3", 2)] "n1" 2
      rfl rfl rfl (by decide)
  obtain ⟨nd', hok⟩ := hex (Or.inl (by decide))
  refine ⟨nd', hok, ?_⟩
  rw [hval nd' hok]
  decide

lemma reachable_bounds_aux (nd : RaftNode) (h : Reachable nd) : BasicBounds nd := by
  unfold Reachable at h
  induction h with
  | refl => refine ⟨?_, ?_, ?_⟩ <;> decide
  | tail hchain hstep ih => exact (step_preserves hstep ih).1

/-- C4 counterexample: the freshly constructed node is reachable (empty
event sequence) yet violates `last_applied ≤ commit_index`:
`last_applied = 1` while `commit_index = 0`. -/
theorem init_breaks_applied_le_commit :
    Reachable RaftNode.init ∧
    RaftNode.init.last_applied = 1 ∧ RaftNode.init.commit_index = 0 ∧
    ¬ (1 ≤ RaftNode.init.last_applied ∧
       RaftNode.init.last_applied ≤ RaftNode.init.commit_index ∧
       RaftNode.init.commit_index ≤ (RaftNode.init.log.size : Int)) :=
  ⟨Relation.ReflTransGen.refl, rfl, rfl, by decide⟩

/-- C4 amended: in every reachable state `1 ≤ last_applied`,
`0 ≤ commit_index` and `1 ≤ log.size()` hold; the full chain
`last_applied ≤ commit_index ≤ log.size()` does not (it already fails at
construction, and adversarial append_entries traffic can push
`commit_index` above `log.size()` and below `last_applied`). -/
theorem reachable_applied_commit_bounds (nd : RaftNode) (h : Reachable nd) :
    1 ≤ nd.last_applied ∧ 0 ≤ nd.commit_index ∧ 1 ≤ nd.log.size :=
  reachable_bounds_aux nd h

/-- Witness for C4 amended: the bounds at the initial state. -/
theorem reachable_applied_commit_bounds_witness :
    1 ≤ RaftNode.init.last_applied ∧ 0 ≤ RaftNode.init.commit_index ∧
    1 ≤ RaftNode.init.log.size :=
  reachable_applied_commit_bounds RaftNode.init Relation.ReflTransGen.refl

/-- C7: over every operation from a reachable state, `current_term` never
decreases; `advance_term` with a strictly larger term stores it and
resets `voted_for` to `None`, and with any other term raises ("Can't go
backwards") leaving the node unchanged. -/
theorem term_monotone_and_advance :
    (∀ a b : RaftNode, Reachable a → Step a b → a.current_term ≤ b.current_term) ∧
    (∀ (nd : RaftNode) (t : Int), nd.current_term < t →
      advance_term nd t = .ok { nd with current_term := t, voted_for := none }) ∧
    (∀ (nd : RaftNode) (t : Int), ¬ nd.current_term < t →
      advance_term nd t = .error nd) := by
  refine ⟨?_, ?_, ?_⟩
  · intro a b ha hs
    exact (step_preserves hs (reachable_bounds_aux a ha)).2
  · intro nd t h
    simp [advance_term, h]
  · intro nd t h
    simp [advance_term, h]

/-- Witness for C7: an election tick from the fresh node cannot lower the
term, and `advance_term` evaluates as stated at terms 3 and 3. -/
theorem term_monotone_and_advance_witness :
    (RaftNode.init.current_term ≤
      (exceptState1 (election RaftNode.init 5 6)).current_term) ∧
    advance_term RaftNode.init 3 =
      .ok { RaftNode.init with current_term := 3, voted_for := none } ∧
    advance_term { RaftNode.init with current_term := 3, voted_for := none } 3 =
      .error { RaftNode.init with current_term := 3, voted_for := none } :=
  ⟨term_monotone_and_advance.1 RaftNode.init _ Relation.ReflTransGen.refl
      (Step.electionStep RaftNode.init 5 6),
   term_monotone_and_advance.2.1 RaftNode.init 3 (by decide),
   term_monotone_and_advance.2.2 { RaftNode.init with current_term := 3, voted_for := none }
      3 (by decide)⟩

end Maelstrom
